import Mathlib

/-!
Verification development for the UPI statement analyser (src/analyser.py).

Strings are modelled as `List Char`; Python floats as `ℚ` (the amounts the
program manipulates are decimal literals, which `ℚ` represents exactly).
The three regular expressions the program uses are embedded directly:

* the date pattern `\d{2} \w{3} \d{2}` is a fixed-width pattern of
  character classes, embedded as a 9-character test (`matchesDateAt`),
  with `re.match` = test at position 0, `re.search` = leftmost test
  (`searchDate`), and `re.sub(p, "", s)` = left-to-right removal of all
  non-overlapping occurrences (`removeDateAll`);
* the amount pattern `\d{1,3}(?:,\d{3})*(?:\.\d{2})` is embedded with the
  engine's leftmost search and greedy backtracking made explicit
  (`matchAmountAt`, `searchAmount`);
* `datetime.strptime(tok, "%d %b %y")` / `strftime` are embedded for the
  tokens the date regex can produce (`strptime_dby`, `strftime_iso`,
  `strftime_dby`), including the 00-68 / 69-99 two-digit-year century
  convention and case-insensitive month-abbreviation lookup.
-/

/-- Python `\d` on the ASCII fragment: a decimal digit. -/
def isDigitChar (c : Char) : Bool := c.isDigit

/-- Python `\w` on the ASCII fragment: letter, digit or underscore. -/
def isWordChar (c : Char) : Bool := c.isAlphanum || c == '_'

/-- Python `str.strip` whitespace set (ASCII fragment). -/
def pyIsSpace (c : Char) : Bool :=
  c == ' ' || c == '\t' || c == '\n' || c == '\r' || c == '\x0b' || c == '\x0c'

/-- Python `str.strip`: drop leading and trailing whitespace. -/
def pyStrip (l : List Char) : List Char :=
  ((l.dropWhile pyIsSpace).reverse.dropWhile pyIsSpace).reverse

/-- Python `str.lower` (ASCII fragment). -/
def pyLower (l : List Char) : List Char := l.map Char.toLower

/-- Python `str.upper` (ASCII fragment). -/
def pyUpper (l : List Char) : List Char := l.map Char.toUpper

/-- Does the first list start with the second?  Used for Python substring search. -/
def startsWithList : List Char → List Char → Bool
  | _, [] => true
  | [], _ :: _ => false
  | c :: cs, d :: ds => c == d && startsWithList cs ds

/-- Python substring containment `needle in hay`. -/
def containsSub (hay needle : List Char) : Bool :=
  match hay with
  | [] => needle.isEmpty
  | _ :: t => startsWithList hay needle || containsSub t needle

/-- Python `" ".join(parts)`. -/
def joinSpace : List (List Char) → List Char
  | [] => []
  | [x] => x
  | x :: xs => x ++ ' ' :: joinSpace xs

/-- The date pattern `\d{2} \w{3} \d{2}` tested at the start of the list
(fixed width 9). -/
def matchesDateAt : List Char → Bool
  | d1 :: d2 :: s1 :: w1 :: w2 :: w3 :: s2 :: d3 :: d4 :: _ =>
      isDigitChar d1 && isDigitChar d2 && s1 == ' ' &&
      isWordChar w1 && isWordChar w2 && isWordChar w3 && s2 == ' ' &&
      isDigitChar d3 && isDigitChar d4
  | _ => false

/-- Model of `re.search(r"(\d{2} \w{3} \d{2})", s)`: the leftmost occurrence of the
date pattern, returned as the 9-character matched token. -/
def searchDate : List Char → Option (List Char)
  | [] => none
  | c :: cs => if matchesDateAt (c :: cs) then some ((c :: cs).take 9) else searchDate cs

/-- Body of `re.sub(r"\d{2} \w{3} \d{2}", "", s)`: scan left to right, on a
match skip the 9 matched characters, otherwise keep one character.  The fuel
is the length of the list; each step consumes at least one character. -/
def removeDateAllFuel : Nat → List Char → List Char
  | 0, l => l
  | _ + 1, [] => []
  | fuel + 1, c :: cs =>
      if matchesDateAt (c :: cs) then removeDateAllFuel fuel (cs.drop 8)
      else c :: removeDateAllFuel fuel cs

/-- Model of `re.sub(r"\d{2} \w{3} \d{2}", "", s)`: remove every non-overlapping
occurrence of the date pattern, left to right. -/
def removeDateAll (l : List Char) : List Char := removeDateAllFuel l.length l

/-- Removal of only the FIRST occurrence of the date pattern.  Modelled from
the spec's words ("the block text with the FIRST date-pattern occurrence
removed"); the source calls `re.sub` without a count, which removes all
occurrences, so this is the comparison definition, not the source's. -/
def removeDateFirst : List Char → List Char
  | [] => []
  | c :: cs => if matchesDateAt (c :: cs) then cs.drop 8 else c :: removeDateFirst cs

/-- Consume exactly `k` digits; `none` if any of the first `k` characters is
missing or not a digit.  Returns (consumed, rest). -/
def takeDigits : Nat → List Char → Option (List Char × List Char)
  | 0, l => some ([], l)
  | _ + 1, [] => none
  | k + 1, c :: cs =>
      if isDigitChar c then (takeDigits k cs).map (fun p => (c :: p.1, p.2)) else none

/-- All ways the greedy star `(?:,\d{3})*` can match a prefix of `l`, in the
engine's backtracking order: the maximal repetition count first, down to
zero repetitions.  Each entry is (consumed, rest). -/
def starOptions : List Char → List (List Char × List Char)
  | c0 :: c1 :: c2 :: c3 :: rest =>
      if c0 == ',' && isDigitChar c1 && isDigitChar c2 && isDigitChar c3 then
        (starOptions rest).map (fun p => (c0 :: c1 :: c2 :: c3 :: p.1, p.2)) ++
          [([], c0 :: c1 :: c2 :: c3 :: rest)]
      else [([], c0 :: c1 :: c2 :: c3 :: rest)]
  | l => [([], l)]

/-- The mandatory tail `(?:\.\d{2})` of the amount pattern: a decimal point
followed by two digits; returns the three consumed characters. -/
def tryDecimal : List Char → Option (List Char)
  | '.' :: e1 :: e2 :: _ =>
      if isDigitChar e1 && isDigitChar e2 then some ('.' :: e1 :: e2 :: []) else none
  | _ => none

/-- First `some` produced by `f` along a list, in order. -/
def firstSome {α β : Type} (f : α → Option β) : List α → Option β
  | [] => none
  | a :: as =>
      match f a with
      | some b => some b
      | none => firstSome f as

/-- The amount pattern `\d{1,3}(?:,\d{3})*(?:\.\d{2})` matched at the start
of `l`, exactly as the backtracking engine does: the leading digit run is
tried greedily with 3, then 2, then 1 digits; for each, the comma groups are
tried from the maximal repetition downwards; then the mandatory decimal
tail.  Returns the matched token. -/
def matchAmountAt (l : List Char) : Option (List Char) :=
  firstSome
    (fun k =>
      match takeDigits k l with
      | none => none
      | some p =>
          firstSome
            (fun q =>
              match tryDecimal q.2 with
              | none => none
              | some dec => some (p.1 ++ q.1 ++ dec))
            (starOptions p.2))
    [3, 2, 1]

/-- Model of `re.search(r"(\d{1,3}(?:,\d{3})*(?:\.\d{2}))", s)`: the match at the
leftmost position where the amount pattern matches. -/
def searchAmount : List Char → Option (List Char)
  | [] => none
  | c :: cs =>
      match matchAmountAt (c :: cs) with
      | some t => some t
      | none => searchAmount cs

/-- Numeric value of a digit character. -/
def digitVal (c : Char) : Nat := c.toNat - '0'.toNat

/-- Value of a digit string, most significant first. -/
def digitsVal (l : List Char) : Nat := l.foldl (fun a c => a * 10 + digitVal c) 0

/-- Every character is a digit. -/
def allDigits (l : List Char) : Bool := l.all isDigitChar

/-- Split a list on a separator character (Python `str.split(sep)` on a
string with no repeated separators). -/
def splitOnChar (sep : Char) : List Char → List (List Char)
  | [] => [[]]
  | c :: cs =>
      match splitOnChar sep cs with
      | [] => [[]]
      | p :: ps => if c == sep then [] :: p :: ps else (c :: p) :: ps

/-- The `%y` field of `strptime`: one or two digits, value 0 to 99. -/
def parseNat12 (l : List Char) : Option Nat :=
  if allDigits l && decide (1 ≤ l.length) && decide (l.length ≤ 2) then some (digitsVal l)
  else none

/-- The `%d` field of `strptime`: one or two digits, value 1 to 31 (the
regex `strptime` builds for `%d` is `3[01]|[12]\d|0[1-9]|[1-9]`). -/
def parseDayTok (l : List Char) : Option Nat :=
  match parseNat12 l with
  | some v => if 1 ≤ v && v ≤ 31 then some v else none
  | none => none

/-- The C-locale month abbreviations used by `%b`. -/
def monthAbbrevs : List (List Char) :=
  ["Jan", "Feb", "Mar", "Apr", "May", "Jun",
   "Jul", "Aug", "Sep", "Oct", "Nov", "Dec"].map String.toList

/-- Case-insensitive lookup of a month abbreviation, 1-based result. -/
def monthLookupAux (i : Nat) : List (List Char) → List Char → Option Nat
  | [], _ => none
  | m :: ms, l => if pyLower l == pyLower m then some i else monthLookupAux (i + 1) ms l

/-- Parsing of `%b`: `strptime` lowercases the input and the month names. -/
def monthFromAbbrev (l : List Char) : Option Nat := monthLookupAux 1 monthAbbrevs l

/-- The `%y` century convention of `strptime`: 0-68 maps to 2000-2068,
69-99 maps to 1969-1999. -/
def fullYear (y : Nat) : Nat := if y ≤ 68 then 2000 + y else 1900 + y

/-- Gregorian leap-year test (as `datetime` uses). -/
def isLeapYear (y : Nat) : Bool := y % 4 == 0 && (y % 100 != 0 || y % 400 == 0)

/-- Days in a month of a year. -/
def daysInMonth (y m : Nat) : Nat :=
  if m == 2 then (if isLeapYear y then 29 else 28)
  else if m == 4 || m == 6 || m == 9 || m == 11 then 30
  else 31

/-- Model of `datetime.strptime(tok, "%d %b %y")` on the 9-character tokens the date
regex produces: day, month abbreviation and 2-digit year separated by single
spaces; fails (raises `ValueError`, here `none`) if the middle field is not
a month name or the day is out of range for the month.  Returns
(year, month, day) with the year already century-expanded. -/
def strptime_dby (tok : List Char) : Option (Nat × Nat × Nat) :=
  match splitOnChar ' ' tok with
  | [ds, ms, ys] =>
      match parseDayTok ds, monthFromAbbrev ms, parseNat12 ys with
      | some d, some m, some y =>
          let yy := fullYear y
          if d ≤ daysInMonth yy m then some (yy, m, d) else none
      | _, _, _ => none
  | _ => none

/-- Zero-padded two-digit rendering. -/
def pad2 (n : Nat) : List Char := [Nat.digitChar (n / 10 % 10), Nat.digitChar (n % 10)]

/-- Zero-padded four-digit rendering. -/
def pad4 (n : Nat) : List Char :=
  [Nat.digitChar (n / 1000 % 10), Nat.digitChar (n / 100 % 10),
   Nat.digitChar (n / 10 % 10), Nat.digitChar (n % 10)]

/-- Model of `strftime("%Y-%m-%d")`. -/
def strftime_iso (y m d : Nat) : List Char := pad4 y ++ '-' :: pad2 m ++ '-' :: pad2 d

/-- Model of `strftime("%d %b %y")`: the same two-digit-year convention backwards. -/
def strftime_dby (y m d : Nat) : List Char :=
  pad2 d ++ ' ' :: ((monthAbbrevs.getD (m - 1) []) ++ ' ' :: pad2 (y % 100))

/-- Line 40 of the source: `strptime(tok, "%d %b %y").strftime("%Y-%m-%d")`,
the date-normalization step. -/
def normalize_date (tok : List Char) : Option (List Char) :=
  (strptime_dby tok).map (fun t => strftime_iso t.1 t.2.1 t.2.2)

/-- Model of `tok.replace(",", "")`: strip thousands-separator commas. -/
def stripCommas (l : List Char) : List Char := l.filter (fun c => c ≠ ',')

/-- The digits before the decimal point. -/
def intPartOf (t : List Char) : List Char := t.takeWhile (fun c => c ≠ '.')

/-- The digits after the decimal point. -/
def fracPartOf (t : List Char) : List Char := (t.dropWhile (fun c => c ≠ '.')).drop 1

/-- Model of `float(tok.replace(",", ""))` on the tokens the amount regex produces
(digits, commas and one decimal point), with the float value represented
exactly as a rational. -/
def pyFloatOfAmount (tok : List Char) : ℚ :=
  (digitsVal (intPartOf (stripCommas tok)) : ℚ) +
    (digitsVal (fracPartOf (stripCommas tok)) : ℚ) /
      (10 : ℚ) ^ (fracPartOf (stripCommas tok)).length

/-- A parsed transaction (the dict built at lines 44-49 of the source). -/
structure Transaction where
  date : List Char
  description : List Char
  amount : ℚ
  type : List Char
  deriving DecidableEq

/-- Lines 43: Credit if the upper-cased block contains "RETURN" or
"INTEREST", else Debit. -/
def tx_type_of (block : List Char) : List Char :=
  if containsSub (pyUpper block) "RETURN".toList ||
     containsSub (pyUpper block) "INTEREST".toList
  then "Credit".toList else "Debit".toList

/-- The body of the per-block loop of `parse_transaction_blocks`
(lines 35-51): a block yields a transaction exactly when the date regex and
the amount regex both find a match and `strptime` accepts the date token;
the `try`/`except` turns the `strptime` failure into a silent drop. -/
def parse_block (block : List Char) : Option Transaction :=
  match searchDate block, searchAmount block with
  | some dtok, some atok =>
      match strptime_dby dtok with
      | some t =>
          some { date := strftime_iso t.1 t.2.1 t.2.2
                 description := pyStrip (removeDateAll block)
                 amount := pyFloatOfAmount atok
                 type := tx_type_of block }
      | none => none
  | _, _ => none

/-- The function `parse_transaction_blocks` (lines 33-52). -/
def parse_transaction_blocks (blocks : List (List Char)) : List Transaction :=
  blocks.filterMap parse_block

/-- The function `categorize_transaction` (lines 55-68); the local `desc` of the source
(the lowercased description) is written out as `pyLower description`. -/
def categorize_transaction (description : List Char) : List Char :=
  if containsSub (pyLower description) "zomato".toList ||
     containsSub (pyLower description) "swiggy".toList then
    "Food".toList
  else if containsSub (pyLower description) "googlepay".toList ||
          containsSub (pyLower description) "paytm".toList ||
          containsSub (pyLower description) "upi".toList then
    "UPI Payment".toList
  else if containsSub (pyLower description) "imps".toList ||
          containsSub (pyLower description) "transfer".toList then
    "Bank Transfer".toList
  else if containsSub (pyLower description) "interest".toList ||
          containsSub (pyLower description) "salary".toList then
    "Income".toList
  else if containsSub (pyLower description) "recharge".toList ||
          containsSub (pyLower description) "bill".toList then
    "Utilities".toList
  else
    "Others".toList

/-- The loop of `group_transaction_blocks` (lines 22-27): if the raw line
starts with the date pattern and the accumulator is non-empty, flush the
accumulator as a block; then unconditionally append the stripped line. -/
def group_go (current : List (List Char)) : List (List Char) → List (List Char)
  | [] => if current.isEmpty then [] else [joinSpace current]
  | l :: ls =>
      if matchesDateAt l && !current.isEmpty then
        joinSpace current :: group_go [pyStrip l] ls
      else
        group_go (current ++ [pyStrip l]) ls

/-- The function `group_transaction_blocks` (lines 19-30). -/
def group_transaction_blocks (lines : List (List Char)) : List (List Char) :=
  group_go [] lines

/-- A line begins with "two digits, space, three letters, space, two
digits".  Modelled from the spec's words for the block-delimiter pattern;
the source's regex uses `\w{3}` (word characters), not three letters, so
this is the comparison definition, not the source's. -/
def lettersDateStart : List Char → Bool
  | d1 :: d2 :: s1 :: a1 :: a2 :: a3 :: s2 :: d3 :: d4 :: _ =>
      isDigitChar d1 && isDigitChar d2 && s1 == ' ' &&
      a1.isAlpha && a2.isAlpha && a3.isAlpha && s2 == ' ' &&
      isDigitChar d3 && isDigitChar d4
  | _ => false

/-- The block-grouping algorithm exactly as the spec words it, parameterized
by the delimiter test: keep an output list and an accumulator; if the line
passes the delimiter test and the accumulator is non-empty, flush the
accumulator (joined with single spaces) as a completed block; then append
the stripped line; flush any remainder at the end. -/
def group_spec_go (datep : List Char → Bool) (blocks : List (List Char))
    (acc : List (List Char)) : List (List Char) → List (List Char)
  | [] => if acc.isEmpty then blocks else blocks ++ [joinSpace acc]
  | l :: ls =>
      if datep l && !acc.isEmpty then
        group_spec_go datep (blocks ++ [joinSpace acc]) [pyStrip l] ls
      else
        group_spec_go datep blocks (acc ++ [pyStrip l]) ls

/-- The spec-worded block grouper (see `group_spec_go`). -/
def group_blocks_spec (datep : List Char → Bool) (lines : List (List Char)) :
    List (List Char) :=
  group_spec_go datep [] [] lines

/-- A transaction after the enrichment pass of lines 113-114 added the
category field. -/
structure CatTransaction where
  date : List Char
  description : List Char
  amount : ℚ
  type : List Char
  category : List Char
  deriving DecidableEq

/-- Lines 113-114: `txn["category"] = categorize_transaction(txn["description"])`. -/
def categorize_all (txs : List Transaction) : List CatTransaction :=
  txs.map (fun t =>
    { date := t.date, description := t.description, amount := t.amount,
      type := t.type, category := categorize_transaction t.description })

/-- Line 131: `df[df["type"] == "Credit"]["amount"].sum()`. -/
def total_income (txs : List CatTransaction) : ℚ :=
  (((txs.filter (fun t => t.type = "Credit".toList))).map (fun t => t.amount)).sum

/-- Line 132: `df[df["type"] == "Debit"]["amount"].sum()`. -/
def total_expense (txs : List CatTransaction) : ℚ :=
  (((txs.filter (fun t => t.type = "Debit".toList))).map (fun t => t.amount)).sum

/-- Line 133: `savings = total_income - total_expense`. -/
def savings (txs : List CatTransaction) : ℚ := total_income txs - total_expense txs

/-- Line 134: `(savings / total_income) * 100 if total_income > 0 else 0`. -/
def savings_percent (txs : List CatTransaction) : ℚ :=
  if total_income txs > 0 then (savings txs / total_income txs) * 100 else 0

/-- Sum of the amounts of the transactions in a given category. -/
def categorySum (txs : List CatTransaction) (cat : List Char) : ℚ :=
  ((txs.filter (fun t => t.category = cat)).map (fun t => t.amount)).sum

/-- Line 143: the Debit rows grouped by category and summed (the bar-chart
data), as a list of (category, sum) pairs over the distinct categories of
the Debit rows. -/
def category_expenses (txs : List CatTransaction) : List (List Char × ℚ) :=
  let debits := txs.filter (fun t => t.type = "Debit".toList)
  ((debits.map (fun t => t.category)).dedup).map (fun c => (c, categorySum debits c))

/-- Line 148: all rows grouped by category and summed (the LLM prompt data). -/
def summary_dict (txs : List CatTransaction) : List (List Char × ℚ) :=
  ((txs.map (fun t => t.category)).dedup).map (fun c => (c, categorySum txs c))

/-- One CSV row (line 153): the five Transaction fields in column order.
Serialization itself is the CSV collaborator's job and is out of scope, so
a row is the tuple of field values. -/
def csvRows (txs : List CatTransaction) :
    List (List Char × List Char × ℚ × List Char × List Char) :=
  txs.map (fun t => (t.date, t.description, t.amount, t.type, t.category))

/-- The function `get_llm_insight` (lines 71-91).  The remote ChatCompletion round-trip
is an external collaborator; its outcome is passed in: `Except.ok` carries
the response content the source returns verbatim, `Except.error` carries
the stringified exception `e` that the `except` branch formats. -/
def get_llm_insight (llmOutcome : Except (List Char) (List Char)) : List Char :=
  match llmOutcome with
  | Except.ok content => content
  | Except.error e => "⚠️ LLM failed: ".toList ++ e

/-- Everything the UI section (lines 112-153) derives from the parsed
transactions and the LLM outcome. -/
structure Report where
  table : List CatTransaction
  income : ℚ
  expense : ℚ
  savingsPct : ℚ
  chart : List (List Char × ℚ)
  csv : List (List Char × List Char × ℚ × List Char × List Char)
  insight : List Char
  deriving DecidableEq

/-- The post-parse pipeline (lines 112-153): categorize, aggregate, chart,
request the insight, export.  Total: no failure of the LLM outcome aborts
it. -/
def build_report (txs : List Transaction)
    (llmOutcome : Except (List Char) (List Char)) : Report :=
  let cat := categorize_all txs
  { table := cat
    income := total_income cat
    expense := total_expense cat
    savingsPct := savings_percent cat
    chart := category_expenses cat
    csv := csvRows cat
    insight := get_llm_insight llmOutcome }

/-- The example transaction list of the spec's testable properties:
amounts 1000 (Credit), 400 (Debit), 100 (Debit). -/
def exampleTxs : List CatTransaction :=
  [ { date := [], description := [], amount := 1000, type := "Credit".toList,
      category := "Others".toList },
    { date := [], description := [], amount := 400, type := "Debit".toList,
      category := "Others".toList },
    { date := [], description := [], amount := 100, type := "Debit".toList,
      category := "Others".toList } ]

/-- A single Debit transaction, used to exercise the zero-income branch. -/
def singleDebit : List CatTransaction :=
  [ { date := [], description := [], amount := 400, type := "Debit".toList,
      category := "Others".toList } ]

/-- A block whose text contains two occurrences of the date pattern. -/
def multiDateBlock : List Char := "05 Jan 24 UPI 06 Feb 24 50.00".toList

theorem sum_map_ite (key : List Char) (txs : List CatTransaction) :
    ((txs.filter (fun t => t.type = key)).map (fun t => t.amount)).sum
      = (txs.map (fun t => if t.type = key then t.amount else 0)).sum := by
  induction txs with
  | nil => simp
  | cons a l ih => by_cases h : a.type = key <;> simp [h, ih]

/-- C2: total_income is the sum of Credit amounts, total_expense the sum of
Debit amounts, savings their difference; on the example list
[1000 Credit, 400 Debit, 100 Debit] the aggregator yields income 1000,
expense 500, savings 500 and savings percent 50. -/
theorem C2_aggregator_totals :
    (∀ txs : List CatTransaction,
        total_income txs
            = (txs.map (fun t => if t.type = "Credit".toList then t.amount else 0)).sum ∧
        total_expense txs
            = (txs.map (fun t => if t.type = "Debit".toList then t.amount else 0)).sum ∧
        savings txs = total_income txs - total_expense txs) ∧
    total_income exampleTxs = 1000 ∧ total_expense exampleTxs = 500 ∧
      savings exampleTxs = 500 ∧ savings_percent exampleTxs = 50 := by
  refine ⟨fun txs => ⟨sum_map_ite _ txs, sum_map_ite _ txs, rfl⟩, ?_, ?_, ?_, ?_⟩ <;>
    norm_num [savings_percent, savings, total_income, total_expense, exampleTxs]

/-- C4: when total_income is 0 the guard `total_income > 0` fails and
savings_percent is 0 without any division being evaluated. -/
theorem C4_zero_income_percent (txs : List CatTransaction)
    (h : total_income txs = 0) : savings_percent txs = 0 := by
  rw [savings_percent, h]
  norm_num

theorem C4_zero_income_percent_witness :
    total_income singleDebit = 0 ∧ savings_percent singleDebit = 0 :=
  ⟨rfl, C4_zero_income_percent singleDebit rfl⟩

/-- C5: categorization is first-matching-rule-wins over the lowercased
description, in the fixed rule order of the source; it depends on the
description only through its lowercasing; every description lands in one
of the six categories; and the GooglePay-and-Zomato example hits rule 1
(Food) before rule 2. -/
theorem C5_categorize_first_match (d : List Char) :
    (containsSub (pyLower d) ("zomato".toList) = true ∨
       containsSub (pyLower d) ("swiggy".toList) = true →
     categorize_transaction d = "Food".toList) ∧
    (containsSub (pyLower d) ("zomato".toList) = false →
     containsSub (pyLower d) ("swiggy".toList) = false →
     containsSub (pyLower d) ("googlepay".toList) = true ∨
       containsSub (pyLower d) ("paytm".toList) = true ∨
       containsSub (pyLower d) ("upi".toList) = true →
     categorize_transaction d = "UPI Payment".toList) ∧
    (containsSub (pyLower d) ("zomato".toList) = false →
     containsSub (pyLower d) ("swiggy".toList) = false →
     containsSub (pyLower d) ("googlepay".toList) = false →
     containsSub (pyLower d) ("paytm".toList) = false →
     containsSub (pyLower d) ("upi".toList) = false →
     containsSub (pyLower d) ("imps".toList) = true ∨
       containsSub (pyLower d) ("transfer".toList) = true →
     categorize_transaction d = "Bank Transfer".toList) ∧
    (containsSub (pyLower d) ("zomato".toList) = false →
     containsSub (pyLower d) ("swiggy".toList) = false →
     containsSub (pyLower d) ("googlepay".toList) = false →
     containsSub (pyLower d) ("paytm".toList) = false →
     containsSub (pyLower d) ("upi".toList) = false →
     containsSub (pyLower d) ("imps".toList) = false →
     containsSub (pyLower d) ("transfer".toList) = false →
     containsSub (pyLower d) ("interest".toList) = true ∨
       containsSub (pyLower d) ("salary".toList) = true →
     categorize_transaction d = "Income".toList) ∧
    (containsSub (pyLower d) ("zomato".toList) = false →
     containsSub (pyLower d) ("swiggy".toList) = false →
     containsSub (pyLower d) ("googlepay".toList) = false →
     containsSub (pyLower d) ("paytm".toList) = false →
     containsSub (pyLower d) ("upi".toList) = false →
     containsSub (pyLower d) ("imps".toList) = false →
     containsSub (pyLower d) ("transfer".toList) = false →
     containsSub (pyLower d) ("interest".toList) = false →
     containsSub (pyLower d) ("salary".toList) = false →
     containsSub (pyLower d) ("recharge".toList) = true ∨
       containsSub (pyLower d) ("bill".toList) = true →
     categorize_transaction d = "Utilities".toList) ∧
    (containsSub (pyLower d) ("zomato".toList) = false →
     containsSub (pyLower d) ("swiggy".toList) = false →
     containsSub (pyLower d) ("googlepay".toList) = false →
     containsSub (pyLower d) ("paytm".toList) = false →
     containsSub (pyLower d) ("upi".toList) = false →
     containsSub (pyLower d) ("imps".toList) = false →
     containsSub (pyLower d) ("transfer".toList) = false →
     containsSub (pyLower d) ("interest".toList) = false →
     containsSub (pyLower d) ("salary".toList) = false →
     containsSub (pyLower d) ("recharge".toList) = false →
     containsSub (pyLower d) ("bill".toList) = false →
     categorize_transaction d = "Others".toList) ∧
    (∀ d2, pyLower d = pyLower d2 →
       categorize_transaction d = categorize_transaction d2) ∧
    (categorize_transaction d = "Food".toList ∨
     categorize_transaction d = "UPI Payment".toList ∨
     categorize_transaction d = "Bank Transfer".toList ∨
     categorize_transaction d = "Income".toList ∨
     categorize_transaction d = "Utilities".toList ∨
     categorize_transaction d = "Others".toList) ∧
    categorize_transaction ("Paid via GooglePay for Zomato order".toList)
      = "Food".toList := by
  refine ⟨?_, ?_, ?_, ?_, ?_, ?_, ?_, ?_, by decide⟩
  · intro h
    rcases h with h | h <;> simp_all [categorize_transaction]
  · intro h1 h2 h
    rcases h with h | h | h <;> simp_all [categorize_transaction]
  · intro h1 h2 h3 h4 h5 h
    rcases h with h | h <;> simp_all [categorize_transaction]
  · intro h1 h2 h3 h4 h5 h6 h7 h
    rcases h with h | h <;> simp_all [categorize_transaction]
  · intro h1 h2 h3 h4 h5 h6 h7 h8 h9 h
    rcases h with h | h <;> simp_all [categorize_transaction]
  · intro h1 h2 h3 h4 h5 h6 h7 h8 h9 h10 h11
    simp_all [categorize_transaction]
  · intro d2 h
    simp only [categorize_transaction, h]
  · unfold categorize_transaction
    split_ifs <;> tauto

theorem C5_categorize_first_match_witness :
    categorize_transaction ("zomato".toList) = "Food".toList :=
  (C5_categorize_first_match ("zomato".toList)).1 (Or.inl (by decide))

/-- C9: a failed LLM call is caught and rendered as the failure string
(the warning marker followed by "LLM failed: " and the error detail), the
pipeline still produces a full report, and every non-insight part of the
report (table, metrics, chart, CSV rows) is independent of the LLM
outcome. -/
theorem C9_llm_failure_isolated (txs : List Transaction) (e : List Char)
    (r1 r2 : Except (List Char) (List Char)) :
    get_llm_insight (Except.error e) = "⚠️ ".toList ++ "LLM failed: ".toList ++ e ∧
    (build_report txs (Except.error e)).insight
      = "⚠️ ".toList ++ "LLM failed: ".toList ++ e ∧
    (build_report txs r1).table = (build_report txs r2).table ∧
    (build_report txs r1).income = (build_report txs r2).income ∧
    (build_report txs r1).expense = (build_report txs r2).expense ∧
    (build_report txs r1).savingsPct = (build_report txs r2).savingsPct ∧
    (build_report txs r1).chart = (build_report txs r2).chart ∧
    (build_report txs r1).csv = (build_report txs r2).csv :=
  ⟨rfl, rfl, rfl, rfl, rfl, rfl, rfl, rfl⟩

theorem parse_block_eq_some {block : List Char} {t : Transaction}
    (h : parse_block block = some t) :
    ∃ dtok atok tr, searchDate block = some dtok ∧ searchAmount block = some atok ∧
      strptime_dby dtok = some tr ∧
      t = { date := strftime_iso tr.1 tr.2.1 tr.2.2
            description := pyStrip (removeDateAll block)
            amount := pyFloatOfAmount atok
            type := tx_type_of block } := by
  unfold parse_block at h
  split at h
  next dtok atok hds hsa =>
    split at h
    next tr hst =>
      injection h with h
      exact ⟨dtok, atok, tr, hds, hsa, hst, h.symm⟩
    next => exact absurd h (by simp)
  next => exact absurd h (by simp)

/-- C1 counterexample: on a block holding two date tokens, the produced
description is the block with BOTH dates removed (then stripped), not the
block with only the first removed; the two texts differ. -/
theorem C1_counterexample :
    (parse_block multiDateBlock).map (fun t => t.description)
        = some ("UPI  50.00".toList) ∧
    pyStrip (removeDateFirst multiDateBlock) = "UPI 06 Feb 24 50.00".toList ∧
    ("UPI  50.00".toList : List Char) ≠ "UPI 06 Feb 24 50.00".toList :=
  ⟨by decide, by decide, by decide⟩

/-- C1 amended: for every block from which a Transaction is produced, the
description is the block text with EVERY occurrence of the date pattern
removed (left to right, non-overlapping), then stripped of surrounding
whitespace. -/
theorem C1_description_removes_all_dates (block : List Char) (t : Transaction)
    (h : parse_block block = some t) :
    t.description = pyStrip (removeDateAll block) := by
  obtain ⟨dtok, atok, tr, _, _, _, ht⟩ := parse_block_eq_some h
  rw [ht]

theorem C1_description_removes_all_dates_witness :
    (({ date := "2024-01-05".toList, description := "UPI  50.00".toList,
        amount := pyFloatOfAmount ("50.00".toList),
        type := "Debit".toList } : Transaction)).description
      = pyStrip (removeDateAll multiDateBlock) :=
  C1_description_removes_all_dates multiDateBlock _ rfl

/-- The line list that separates the source's `\w{3}` delimiter from the
spec's "three letters": the second line starts with two digits, space,
three DIGITS, space, two digits. -/
def wordDelimLines : List (List Char) := ["x".toList, "12 345 67".toList]

/-- C6 counterexample: the source flushes on the line "12 345 67" (its
middle field is word characters, not letters) and produces two blocks,
while the claimed letters-only delimiter would produce a single joined
block. -/
theorem C6_counterexample :
    group_transaction_blocks wordDelimLines
        = ["x".toList, "12 345 67".toList] ∧
    group_blocks_spec lettersDateStart wordDelimLines = ["x 12 345 67".toList] ∧
    group_transaction_blocks wordDelimLines
      ≠ group_blocks_spec lettersDateStart wordDelimLines :=
  ⟨by decide, by decide, by decide⟩

theorem group_spec_go_eq (ls : List (List Char)) :
    ∀ blocks acc, group_spec_go matchesDateAt blocks acc ls
      = blocks ++ group_go acc ls := by
  induction ls with
  | nil =>
    intro blocks acc
    cases h : acc.isEmpty <;> simp [group_spec_go, group_go, h]
  | cons l ls ih =>
    intro blocks acc
    cases h : (matchesDateAt l && !acc.isEmpty) <;>
      simp [group_spec_go, group_go, h, ih]

theorem group_go_append_nomatch (pre : List (List Char)) :
    ∀ acc rest, (∀ l ∈ pre, matchesDateAt l = false) →
      group_go acc (pre ++ rest) = group_go (acc ++ pre.map pyStrip) rest := by
  induction pre with
  | nil => intro acc rest _; simp
  | cons p ps ih =>
    intro acc rest h
    have hp : matchesDateAt p = false := h p (by simp)
    simp only [List.cons_append, group_go, hp, Bool.false_and, Bool.false_eq_true,
      if_false, List.append_eq]
    rw [ih (acc ++ [pyStrip p]) rest (fun l hl => h l (by simp [hl]))]
    simp

theorem group_go_head_of_ne (rest : List (List Char)) :
    ∀ acc, acc ≠ [] →
      ∃ more tail, group_go acc rest = joinSpace (acc ++ more) :: tail := by
  induction rest with
  | nil =>
    intro acc hacc
    refine ⟨[], [], ?_⟩
    simp [group_go, hacc]
  | cons l ls ih =>
    intro acc hacc
    cases hm : matchesDateAt l with
    | true =>
      refine ⟨[], group_go [pyStrip l] ls, ?_⟩
      simp [group_go, hm, hacc]
    | false =>
      obtain ⟨more, tail, htail⟩ := ih (acc ++ [pyStrip l]) (by simp)
      refine ⟨pyStrip l :: more, tail, ?_⟩
      simp [group_go, hm, htail]

/-- C6 amended: the grouper behaves exactly as the claim's algorithm with
the delimiter pattern read as the source's "two digits, space, three WORD
characters (letters, digits or underscore), space, two digits" tested at
the start of the raw line; and all lines preceding the first
delimiter-matching line end up (stripped, in order) as the leading part of
the first emitted block. -/
theorem C6_amended_grouping :
    (∀ lines, group_transaction_blocks lines = group_blocks_spec matchesDateAt lines) ∧
    (∀ pre rest, pre ≠ [] → (∀ l ∈ pre, matchesDateAt l = false) →
        ∃ more tail, group_transaction_blocks (pre ++ rest)
          = joinSpace (pre.map pyStrip ++ more) :: tail) := by
  constructor
  · intro lines
    rw [group_transaction_blocks, group_blocks_spec, group_spec_go_eq]
    simp
  · intro pre rest hne h
    rw [group_transaction_blocks, group_go_append_nomatch pre [] rest h]
    exact group_go_head_of_ne rest (pre.map pyStrip) (by simpa using hne)

theorem C6_amended_grouping_witness :
    ∃ more tail,
      group_transaction_blocks (["noise".toList] ++ ["05 Jan 24 a".toList])
        = joinSpace (["noise".toList].map pyStrip ++ more) :: tail :=
  C6_amended_grouping.2 ["noise".toList] ["05 Jan 24 a".toList]
    (by decide) (by decide)

theorem parse_block_none_of_no_match (block : List Char)
    (h : searchDate block = none ∨ searchAmount block = none) :
    parse_block block = none := by
  unfold parse_block
  rcases h with h | h <;>
    cases hds : searchDate block <;> cases hsa : searchAmount block <;>
      simp_all

theorem parse_count_split (blocks : List (List Char)) :
    (parse_transaction_blocks blocks).length
        + (blocks.filter (fun b => (parse_block b).isNone)).length
      = blocks.length := by
  induction blocks with
  | nil => simp [parse_transaction_blocks]
  | cons b bs ih =>
    cases hb : parse_block b <;>
      simp [parse_transaction_blocks, List.filterMap_cons, List.filter_cons, hb] at * <;>
      omega

/-- C3: a block yields a Transaction only when the date search, the amount
search and the date parse all succeed; a block missing a date match or an
amount match yields none (and the embedding is total, so no error is
raised); each block yields at most one Transaction; and the number of
dropped blocks is the number of input blocks minus the number of output
transactions. -/
theorem C3_block_drop_conditions :
    (∀ block : List Char,
        searchDate block = none ∨ searchAmount block = none →
        parse_block block = none) ∧
    (∀ (block : List Char) (t : Transaction), parse_block block = some t →
        (∃ dtok, searchDate block = some dtok ∧ (strptime_dby dtok).isSome = true) ∧
        (searchAmount block).isSome = true) ∧
    (∀ block : List Char, (parse_transaction_blocks [block]).length ≤ 1) ∧
    (∀ blocks : List (List Char),
        (blocks.filter (fun b => (parse_block b).isNone)).length
          = blocks.length - (parse_transaction_blocks blocks).length) := by
  refine ⟨parse_block_none_of_no_match, ?_, ?_, ?_⟩
  · intro block t h
    obtain ⟨dtok, atok, tr, hds, hsa, hst, _⟩ := parse_block_eq_some h
    exact ⟨⟨dtok, hds, by simp [hst]⟩, by simp [hsa]⟩
  · intro block
    cases hb : parse_block block <;>
      simp [parse_transaction_blocks, List.filterMap_cons, hb]
  · intro blocks
    have := parse_count_split blocks
    omega

theorem C3_block_drop_conditions_witness :
    parse_block ("no numbers here".toList) = none :=
  C3_block_drop_conditions.1 ("no numbers here".toList) (Or.inl (by decide))

theorem pyFloatOfAmount_nonneg (tok : List Char) : 0 ≤ pyFloatOfAmount tok := by
  rw [pyFloatOfAmount]
  positivity

/-- C8: comma separators are stripped before the decimal parse, so
"1,234.56" parses to 1234.56 and "50.00" to 50.00; every value the parser
can produce is non-negative, and in particular every transaction the
program builds carries a non-negative amount. -/
theorem C8_amount_normalization :
    pyFloatOfAmount ("1,234.56".toList) = (1234.56 : ℚ) ∧
    pyFloatOfAmount ("50.00".toList) = (50.00 : ℚ) ∧
    (∀ tok : List Char, 0 ≤ pyFloatOfAmount tok) ∧
    (∀ (blocks : List (List Char)) (t : Transaction),
        t ∈ parse_transaction_blocks blocks → 0 ≤ t.amount) := by
  refine ⟨?_, ?_, pyFloatOfAmount_nonneg, ?_⟩
  · have h1 : digitsVal (intPartOf (stripCommas ("1,234.56".toList))) = 1234 := by decide
    have h2 : digitsVal (fracPartOf (stripCommas ("1,234.56".toList))) = 56 := by decide
    have h3 : (fracPartOf (stripCommas ("1,234.56".toList))).length = 2 := by decide
    rw [pyFloatOfAmount, h1, h2, h3]
    norm_num
  · have h1 : digitsVal (intPartOf (stripCommas ("50.00".toList))) = 50 := by decide
    have h2 : digitsVal (fracPartOf (stripCommas ("50.00".toList))) = 0 := by decide
    have h3 : (fracPartOf (stripCommas ("50.00".toList))).length = 2 := by decide
    rw [pyFloatOfAmount, h1, h2, h3]
    norm_num
  · intro blocks t ht
    obtain ⟨b, _, hb⟩ := List.mem_filterMap.mp ht
    obtain ⟨dtok, atok, tr, _, _, _, htt⟩ := parse_block_eq_some hb
    rw [htt]
    exact pyFloatOfAmount_nonneg atok

/-- The transaction the parser produces from `multiDateBlock`. -/
def multiDateTx : Transaction :=
  { date := "2024-01-05".toList, description := "UPI  50.00".toList,
    amount := pyFloatOfAmount ("50.00".toList), type := "Debit".toList }

theorem C8_amount_normalization_witness : 0 ≤ multiDateTx.amount :=
  C8_amount_normalization.2.2.2 [multiDateBlock] multiDateTx
    (List.mem_singleton.mpr rfl)

theorem digitVal_digitChar : ∀ k, k < 10 → digitVal (Nat.digitChar k) = k := by decide

theorem digitChar_isDigit : ∀ k, k < 10 → isDigitChar (Nat.digitChar k) = true := by
  decide

theorem digitChar_ne_space : ∀ k, k < 10 → Nat.digitChar k ≠ ' ' := by decide

theorem pad2_no_space (n : Nat) : ∀ c ∈ pad2 n, c ≠ ' ' := by
  intro c hc
  simp [pad2] at hc
  rcases hc with rfl | rfl
  · exact digitChar_ne_space _ (Nat.mod_lt _ (by omega))
  · exact digitChar_ne_space _ (Nat.mod_lt _ (by omega))

theorem splitOnChar_ne_nil (sep : Char) (l : List Char) : splitOnChar sep l ≠ [] := by
  cases l with
  | nil => simp [splitOnChar]
  | cons c cs =>
    rw [splitOnChar]
    cases h : splitOnChar sep cs with
    | nil => simp
    | cons p ps => cases hc : (c == sep) <;> simp [hc]

theorem splitOnChar_sep_append (sep : Char) (a b : List Char)
    (h : ∀ c ∈ a, c ≠ sep) :
    splitOnChar sep (a ++ sep :: b) = a :: splitOnChar sep b := by
  induction a with
  | nil =>
    rw [List.nil_append, splitOnChar]
    cases hs : splitOnChar sep b with
    | nil => exact absurd hs (splitOnChar_ne_nil sep b)
    | cons p ps => simp
  | cons c cs ih =>
    have hc : c ≠ sep := h c (by simp)
    rw [List.cons_append, splitOnChar, ih (fun x hx => h x (by simp [hx]))]
    simp [hc]

theorem splitOnChar_no_sep (sep : Char) (l : List Char)
    (h : ∀ c ∈ l, c ≠ sep) : splitOnChar sep l = [l] := by
  induction l with
  | nil => rfl
  | cons c cs ih =>
    have hc : c ≠ sep := h c (by simp)
    rw [splitOnChar, ih (fun x hx => h x (by simp [hx]))]
    simp [hc]

theorem parseNat12_pad2 (n : Nat) (h : n < 100) : parseNat12 (pad2 n) = some n := by
  have e1 := digitVal_digitChar (n / 10 % 10) (Nat.mod_lt _ (by omega))
  have e2 := digitVal_digitChar (n % 10) (Nat.mod_lt _ (by omega))
  have e3 := digitChar_isDigit (n / 10 % 10) (Nat.mod_lt _ (by omega))
  have e4 := digitChar_isDigit (n % 10) (Nat.mod_lt _ (by omega))
  have hval : digitsVal (pad2 n) = n := by
    simp [digitsVal, pad2, e1, e2]
    omega
  simp [parseNat12, pad2, allDigits, e3, e4] at hval ⊢
  simpa [pad2] using hval

theorem daysInMonth_le_31 (y m : Nat) : daysInMonth y m ≤ 31 := by
  rw [daysInMonth]
  split_ifs <;> omega

theorem month_abbrev_lookup :
    ∀ m, m < 13 → 1 ≤ m → monthFromAbbrev (monthAbbrevs.getD (m - 1) []) = some m := by
  decide

theorem month_abbrev_no_space :
    ∀ m, m < 13 → ∀ c ∈ monthAbbrevs.getD (m - 1) [], c ≠ ' ' := by decide

theorem strptime_roundtrip (d m y : Nat) (h1 : 1 ≤ d) (h2 : 1 ≤ m) (h3 : m ≤ 12)
    (h4 : y ≤ 99) (h5 : d ≤ daysInMonth (fullYear y) m) :
    strptime_dby (strftime_dby (fullYear y) m d) = some (fullYear y, m, d) := by
  have hy : fullYear y % 100 = y := by rw [fullYear]; split_ifs <;> omega
  have hd31 : d ≤ 31 := le_trans h5 (daysInMonth_le_31 _ _)
  have hsplit : splitOnChar ' '
      (pad2 d ++ ' ' :: ((monthAbbrevs.getD (m - 1) []) ++ ' ' :: pad2 y))
      = [pad2 d, monthAbbrevs.getD (m - 1) [], pad2 y] := by
    rw [splitOnChar_sep_append ' ' (pad2 d) _ (pad2_no_space d),
        splitOnChar_sep_append ' ' _ _ (month_abbrev_no_space m (by omega)),
        splitOnChar_no_sep ' ' (pad2 y) (pad2_no_space y)]
  have hday : parseDayTok (pad2 d) = some d := by
    simp [parseDayTok, parseNat12_pad2 d (by omega), h1, hd31]
  have hm := month_abbrev_lookup m (by omega) h2
  simp only [List.getD, List.get?_eq_getElem?] at hm
  rw [strftime_dby, hy, strptime_dby, hsplit]
  simp [hday, hm, parseNat12_pad2 y (by omega), h5]

/-- C7: on a canonical token written as zero-padded day, C-locale month
abbreviation and two-digit year, parsing and re-formatting with the same
convention reproduce the parsed date exactly, normalization produces the
ISO form, and in particular "05 Jan 24" normalizes to "2024-01-05" while
the 2024-01-05 date formats back to "05 Jan 24". -/
theorem C7_date_normalization_roundtrip :
    (∀ d m y, 1 ≤ d → 1 ≤ m → m ≤ 12 → y ≤ 99 → d ≤ daysInMonth (fullYear y) m →
        strptime_dby (strftime_dby (fullYear y) m d) = some (fullYear y, m, d) ∧
        normalize_date (strftime_dby (fullYear y) m d)
          = some (strftime_iso (fullYear y) m d)) ∧
    normalize_date ("05 Jan 24".toList) = some ("2024-01-05".toList) ∧
    strftime_dby 2024 1 5 = "05 Jan 24".toList := by
  refine ⟨?_, by decide, by decide⟩
  intro d m y h1 h2 h3 h4 h5
  have hrt := strptime_roundtrip d m y h1 h2 h3 h4 h5
  exact ⟨hrt, by rw [normalize_date, hrt]; rfl⟩

theorem C7_date_normalization_roundtrip_witness :
    strptime_dby (strftime_dby (fullYear 24) 1 5) = some (fullYear 24, 1, 5) ∧
    normalize_date (strftime_dby (fullYear 24) 1 5)
      = some (strftime_iso (fullYear 24) 1 5) :=
  C7_date_normalization_roundtrip.1 5 1 24 (by decide) (by decide) (by decide)
    (by decide) (by decide)

theorem digit_ne_comma {c : Char} (h : isDigitChar c = true) : c ≠ ',' := by
  intro heq
  rw [heq] at h
  exact absurd h (by decide)

theorem digit_ne_dot {c : Char} (h : isDigitChar c = true) : c ≠ '.' := by
  intro heq
  rw [heq] at h
  exact absurd h (by decide)

theorem starOptions_ne_comma (c : Char) (cs : List Char) (h : c ≠ ',') :
    starOptions (c :: cs) = [([], c :: cs)] := by
  rcases cs with _ | ⟨c1, _ | ⟨c2, _ | ⟨c3, rest⟩⟩⟩ <;> simp [starOptions, h]

theorem tryDecimal_ne_dot (c : Char) (cs : List Char) (h : c ≠ '.') :
    tryDecimal (c :: cs) = none := by
  rcases cs with _ | ⟨e1, _ | ⟨e2, r⟩⟩ <;> simp [tryDecimal, h]

theorem matchAmountAt_nondigit (c : Char) (cs : List Char)
    (h : isDigitChar c = false) : matchAmountAt (c :: cs) = none := by
  simp [matchAmountAt, firstSome, takeDigits, h]

theorem matchAmountAt_digit_stop (d c : Char) (cs : List Char)
    (hd : isDigitChar d = true) (h1 : isDigitChar c = false)
    (h2 : c ≠ ',') (h3 : c ≠ '.') : matchAmountAt (d :: c :: cs) = none := by
  simp [matchAmountAt, firstSome, takeDigits, hd, h1,
    starOptions_ne_comma c cs h2, tryDecimal_ne_dot c cs h3]

theorem matchAmountAt_2digit_stop (d1 d2 c : Char) (cs : List Char)
    (hd1 : isDigitChar d1 = true) (hd2 : isDigitChar d2 = true)
    (h1 : isDigitChar c = false) (h2 : c ≠ ',') (h3 : c ≠ '.') :
    matchAmountAt (d1 :: d2 :: c :: cs) = none := by
  simp [matchAmountAt, firstSome, takeDigits, hd1, hd2, h1,
    starOptions_ne_comma c cs h2, tryDecimal_ne_dot c cs h3,
    starOptions_ne_comma d2 (c :: cs) (digit_ne_comma hd2),
    tryDecimal_ne_dot d2 (c :: cs) (digit_ne_dot hd2)]

theorem matchAmountAt_4digits (d1 d2 d3 c : Char) (cs : List Char)
    (hd1 : isDigitChar d1 = true) (hd2 : isDigitChar d2 = true)
    (hd3 : isDigitChar d3 = true) (hc : isDigitChar c = true) :
    matchAmountAt (d1 :: d2 :: d3 :: c :: cs) = none := by
  simp [matchAmountAt, firstSome, takeDigits, hd1, hd2, hd3, hc,
    starOptions_ne_comma c cs (digit_ne_comma hc),
    tryDecimal_ne_dot c cs (digit_ne_dot hc),
    starOptions_ne_comma d3 (c :: cs) (digit_ne_comma hd3),
    tryDecimal_ne_dot d3 (c :: cs) (digit_ne_dot hd3),
    starOptions_ne_comma d2 (d3 :: c :: cs) (digit_ne_comma hd2),
    tryDecimal_ne_dot d2 (d3 :: c :: cs) (digit_ne_dot hd2)]

theorem matchAmountAt_3digits_dec (d1 d2 d3 e1 e2 : Char) (cs : List Char)
    (hd1 : isDigitChar d1 = true) (hd2 : isDigitChar d2 = true)
    (hd3 : isDigitChar d3 = true) (he1 : isDigitChar e1 = true)
    (he2 : isDigitChar e2 = true) :
    matchAmountAt (d1 :: d2 :: d3 :: '.' :: e1 :: e2 :: cs)
      = some (d1 :: d2 :: d3 :: '.' :: e1 :: e2 :: []) := by
  simp [matchAmountAt, firstSome, takeDigits, hd1, hd2, hd3, he1, he2,
    starOptions_ne_comma '.' (e1 :: e2 :: cs) (by decide), tryDecimal]

theorem searchAmount_digits_dec (ds : List Char) :
    ∀ e1 e2 : Char, (∀ c ∈ ds, isDigitChar c = true) → 3 ≤ ds.length →
      isDigitChar e1 = true → isDigitChar e2 = true →
      searchAmount (ds ++ '.' :: e1 :: e2 :: [])
        = some (ds.drop (ds.length - 3) ++ '.' :: e1 :: e2 :: []) := by
  induction ds with
  | nil => intro e1 e2 _ hlen _ _; simp at hlen
  | cons d ds ih =>
    intro e1 e2 hdigits hlen he1 he2
    have hd : isDigitChar d = true := hdigits d (by simp)
    have hds : ∀ c ∈ ds, isDigitChar c = true := fun c hc => hdigits c (by simp [hc])
    by_cases hsplit : ds.length ≤ 2
    · have h2 : ds.length = 2 := by simp at hlen; omega
      obtain ⟨a, b, rfl⟩ := List.length_eq_two.mp h2
      have ha : isDigitChar a = true := hds a (by simp)
      have hb : isDigitChar b = true := hds b (by simp)
      simp [searchAmount, matchAmountAt_3digits_dec d a b e1 e2 [] hd ha hb he1 he2]
    · rcases ds with _ | ⟨a, _ | ⟨b, _ | ⟨c, r⟩⟩⟩ <;> simp at hsplit
      have ha : isDigitChar a = true := hds a (by simp)
      have hb : isDigitChar b = true := hds b (by simp)
      have hc : isDigitChar c = true := hds c (by simp)
      have hstep : searchAmount ((d :: a :: b :: c :: r) ++ '.' :: e1 :: e2 :: [])
          = searchAmount ((a :: b :: c :: r) ++ '.' :: e1 :: e2 :: []) := by
        simp [searchAmount,
          matchAmountAt_4digits d a b c (r ++ '.' :: e1 :: e2 :: []) hd ha hb hc]
      rw [hstep, ih e1 e2 (fun x hx => hds x hx) (by simp) he1 he2]
      have hlen2 : (d :: a :: b :: c :: r).length - 3
          = ((a :: b :: c :: r).length - 3) + 1 := by simp
      rw [hlen2, List.drop_succ_cons]

theorem searchAmount_block_head (tail : List Char) :
    searchAmount
        ('0' :: '5' :: ' ' :: 'J' :: 'a' :: 'n' :: ' ' :: '2' :: '4' :: ' ' :: tail)
      = searchAmount tail := by
  have h0 := matchAmountAt_2digit_stop '0' '5' ' '
    ('J' :: 'a' :: 'n' :: ' ' :: '2' :: '4' :: ' ' :: tail)
    (by decide) (by decide) (by decide) (by decide) (by decide)
  have h1 := matchAmountAt_digit_stop '5' ' '
    ('J' :: 'a' :: 'n' :: ' ' :: '2' :: '4' :: ' ' :: tail)
    (by decide) (by decide) (by decide) (by decide)
  have h2 := matchAmountAt_nondigit ' '
    ('J' :: 'a' :: 'n' :: ' ' :: '2' :: '4' :: ' ' :: tail) (by decide)
  have h3 := matchAmountAt_nondigit 'J'
    ('a' :: 'n' :: ' ' :: '2' :: '4' :: ' ' :: tail) (by decide)
  have h4 := matchAmountAt_nondigit 'a'
    ('n' :: ' ' :: '2' :: '4' :: ' ' :: tail) (by decide)
  have h5 := matchAmountAt_nondigit 'n'
    (' ' :: '2' :: '4' :: ' ' :: tail) (by decide)
  have h6 := matchAmountAt_nondigit ' '
    ('2' :: '4' :: ' ' :: tail) (by decide)
  have h7 := matchAmountAt_2digit_stop '2' '4' ' ' tail
    (by decide) (by decide) (by decide) (by decide) (by decide)
  have h8 := matchAmountAt_digit_stop '4' ' ' tail
    (by decide) (by decide) (by decide) (by decide)
  have h9 := matchAmountAt_nondigit ' ' tail (by decide)
  simp [searchAmount, h0, h1, h2, h3, h4, h5, h6, h7, h8, h9]

/-- C10: the amount regex admits at most three digits before the first
comma or decimal point, so on a block whose only amount-like token is an
uncommaed number with four or more integer digits, the parsed amount keeps
only the last three integer digits plus the decimal part; in particular a
block containing "1234.56" yields amount 234.56, not 1234.56. -/
theorem C10_amount_regex_truncates :
    (∀ (ds : List Char) (e1 e2 : Char),
        (∀ c ∈ ds, isDigitChar c = true) → 4 ≤ ds.length →
        isDigitChar e1 = true → isDigitChar e2 = true →
        (parse_block ("05 Jan 24 ".toList ++ ds ++ '.' :: e1 :: e2 :: [])).map
            (fun t => t.amount)
          = some (pyFloatOfAmount
              (ds.drop (ds.length - 3) ++ '.' :: e1 :: e2 :: []))) ∧
    (parse_block ("05 Jan 24 Zomato 1234.56".toList)).map (fun t => t.amount)
      = some (234.56 : ℚ) := by
  constructor
  · intro ds e1 e2 hds hlen he1 he2
    have hblock : ("05 Jan 24 ".toList ++ ds ++ '.' :: e1 :: e2 :: [] : List Char)
        = '0' :: '5' :: ' ' :: 'J' :: 'a' :: 'n' :: ' ' :: '2' :: '4' :: ' '
            :: (ds ++ '.' :: e1 :: e2 :: []) := rfl
    rw [hblock]
    have hsd : searchDate
        ('0' :: '5' :: ' ' :: 'J' :: 'a' :: 'n' :: ' ' :: '2' :: '4' :: ' '
          :: (ds ++ '.' :: e1 :: e2 :: []))
        = some ("05 Jan 24".toList) := by
      rw [searchDate]
      simp [matchesDateAt, isDigitChar, isWordChar, List.take]
    have hsa : searchAmount
        ('0' :: '5' :: ' ' :: 'J' :: 'a' :: 'n' :: ' ' :: '2' :: '4' :: ' '
          :: (ds ++ '.' :: e1 :: e2 :: []))
        = some (ds.drop (ds.length - 3) ++ '.' :: e1 :: e2 :: []) := by
      rw [searchAmount_block_head]
      exact searchAmount_digits_dec ds e1 e2 hds (by omega) he1 he2
    have hsp : strptime_dby ['0', '5', ' ', 'J', 'a', 'n', ' ', '2', '4']
        = some (2024, 1, 5) := by decide
    simp [parse_block, hsd, hsa, hsp]
  · have h1 : (parse_block ("05 Jan 24 Zomato 1234.56".toList)).map (fun t => t.amount)
        = some (pyFloatOfAmount ("234.56".toList)) := rfl
    rw [h1]
    have h2 : digitsVal (intPartOf (stripCommas ("234.56".toList))) = 234 := by decide
    have h3 : digitsVal (fracPartOf (stripCommas ("234.56".toList))) = 56 := by decide
    have h4 : (fracPartOf (stripCommas ("234.56".toList))).length = 2 := by decide
    rw [pyFloatOfAmount, h2, h3, h4]
    norm_num

theorem C10_amount_regex_truncates_witness :
    (parse_block ("05 Jan 24 ".toList ++ "1234".toList ++ '.' :: '5' :: '6' :: [])).map
        (fun t => t.amount)
      = some (pyFloatOfAmount
          (("1234".toList).drop (("1234".toList).length - 3) ++ '.' :: '5' :: '6' :: [])) :=
  C10_amount_regex_truncates.1 ("1234".toList) '5' '6' (by decide) (by decide)
    (by decide) (by decide)
